import Mathlib

/-!
Verification development for the PlaytomicTracker repository.

The repository contains two near-duplicate monitor scripts:

* `playtomicmonitor_WA.py` — the WhatsApp variant: fetches availability for a
  set of tenants over a 5-day window, filters out ignored courts and slots
  before a minimum hour, computes the set of newly seen slot identities
  against the previous cycle, and sends a WhatsApp message.
* `playtomicmontior.py` — the email variant: fetches availability for today,
  keeps slots whose `available` field is truthy, computes new identities and
  sends an email listing the new courts.

Both variants are embedded below as pure functions.  Network effects are
modelled by passing the fetched data (or `none` for a total fetch failure) as
an argument; the mutable `self.known_available` set is threaded explicitly.
A Python exception escaping `check_and_notify` (e.g. `int()` failing on a
malformed start time) is modelled by an `Option`-valued normalization step:
when it returns `none` the cycle leaves the known set untouched, exactly as
the caught exception does in `run`.
-/

namespace Playtomic

/-- Models Python string formatting of an optional value: a missing value is
the object `None`, which `f`-strings render as the text `None`. -/
def pyStr : Option String → String
  | some s => s
  | none => "None"

/-- Models Python truthiness-based `a or b` on two optional strings: the empty
string is falsy, so it falls through to the second operand. -/
def pyOr : Option String → Option String → Option String
  | some s, b => if s = "" then b else some s
  | none, b => b

/-- Models Python `a or dflt` where `dflt` is a non-empty string literal. -/
def pyOrD (a : Option String) (dflt : String) : String :=
  match a with
  | some s => if s = "" then dflt else s
  | none => dflt

/-- Value of a digit run, as consumed by Python `int`; `none` when the list is
empty or contains a non-digit (in which case `int` raises `ValueError`). -/
def pyDigits (l : List Char) : Option Nat :=
  if l = [] then none
  else l.foldl (fun acc c => acc.bind fun n =>
    if c.isDigit then some (n * 10 + (c.toNat - 48)) else none) (some 0)

/-- Models Python `int(s)` on the character list of `s`: an optional sign
followed by digits; anything else raises, modelled as `none`. -/
def pyInt : List Char → Option Int
  | '-' :: rest => (pyDigits rest).map fun n => -(n : Int)
  | '+' :: rest => (pyDigits rest).map fun n => (n : Int)
  | l => (pyDigits l).map fun n => (n : Int)

/-- Models Python `s.split(sep)[0]` for a one-character separator: the prefix
of `s` before the first occurrence of `sep` (the whole string if absent). -/
def splitHead (sep : Char) (l : List Char) : List Char :=
  l.takeWhile fun c => c ≠ sep

end Playtomic

namespace WA

open Playtomic

/-- A raw slot object as read from the API response: the start_time and
price fields are read with `slot.get`, so an absent key is `none`. -/
structure Slot where
  start_time : Option String
  price : Option String
deriving DecidableEq, Repr

/-- A raw resource entry: its resource_id (read with the default Unknown)
and its slot list (default empty). -/
structure Resource where
  resource_id : Option String
  slots : List Slot
deriving DecidableEq, Repr

/-- One entry of `all_results`: the queried date string and that day's raw
resource data. -/
structure Day where
  date : String
  data : List Resource
deriving DecidableEq, Repr

/-- The configuration fields `check_and_notify` reads. -/
structure Config where
  ignored_courts : List String
  min_hour : Int
deriving DecidableEq, Repr

/-- One entry of `found_slots`: the date, the first five characters of the
start time, and the price. -/
structure FoundSlot where
  date : String
  time : String
  price : Option String
deriving DecidableEq, Repr

/-- Models the hour parse: `int` of the text before the first colon of the
start time, with `none` for a raised exception. -/
def start_hour (st : String) : Option Int :=
  pyInt (splitHead ':' st.data)

/-- The identity key: date, court id and raw start time joined by
underscores. -/
def slot_id (date court st : String) : String :=
  date ++ "_" ++ court ++ "_" ++ st

/-- The first five characters of the start time (Python slices by code
point). -/
def take5 (st : String) : String :=
  ⟨st.data.take 5⟩

/-- The `found_slots` entry and `slot_id` produced for one kept slot. -/
def canon_pair (date court : String) (s : Slot) : FoundSlot × String :=
  (⟨date, take5 (s.start_time.getD ""), s.price⟩,
    slot_id date court (s.start_time.getD ""))

/-- The loop over a resource's slot list: parse the leading
hour of the start time (raising, i.e. `none`, on a missing or malformed start
time), skip slots before `min_hour`, and record the `found_slots` entry
together with the `slot_id` added to `current_cycle_ids`. -/
def process_slots (cfg : Config) (date court : String) :
    List Slot → Option (List (FoundSlot × String))
  | [] => some []
  | s :: rest =>
    match s.start_time with
    | none => none
    | some st =>
      match start_hour st with
      | none => none
      | some hour =>
        if hour < cfg.min_hour then process_slots cfg date court rest
        else (process_slots cfg date court rest).map
          fun tail => (⟨date, take5 st, s.price⟩, slot_id date court st) :: tail

/-- The court id of a resource: its resource_id, defaulting to Unknown. -/
def court_of (r : Resource) : String :=
  r.resource_id.getD "Unknown"

/-- The loop over the resources of one day: skip ignored courts, then
process that resource's slots. -/
def process_resources (cfg : Config) (date : String) :
    List Resource → Option (List (FoundSlot × String))
  | [] => some []
  | r :: rest =>
    if court_of r ∈ cfg.ignored_courts then process_resources cfg date rest
    else
      match process_slots cfg date (court_of r) r.slots with
      | none => none
      | some here => (process_resources cfg date rest).map fun there => here ++ there

/-- The `for day in availability_data` loop. -/
def process_days (cfg : Config) : List Day → Option (List (FoundSlot × String))
  | [] => some []
  | d :: rest =>
    match process_resources cfg d.date d.data with
    | none => none
    | some here => (process_days cfg rest).map fun there => here ++ there

/-- The Python sort key, the pair of date and time, compared as Python
compares string tuples: lexicographically by code point. -/
def slotLe (a b : FoundSlot) : Prop :=
  a.date.data < b.date.data ∨ (a.date = b.date ∧ ¬ b.time.data < a.time.data)

instance slotLe.decidable : DecidableRel slotLe := fun a b =>
  inferInstanceAs (Decidable (_ ∨ _))

instance slotLe.total : IsTotal FoundSlot slotLe where
  total a b := by
    rcases lt_trichotomy a.date.data b.date.data with h | h | h
    · exact Or.inl (Or.inl h)
    · have hd : a.date = b.date := String.toList_inj.mp h
      rcases lt_trichotomy a.time.data b.time.data with ht | ht | ht
      · exact Or.inl (Or.inr ⟨hd, lt_asymm ht⟩)
      · exact Or.inl (Or.inr ⟨hd, by rw [ht]; exact lt_irrefl _⟩)
      · exact Or.inr (Or.inr ⟨hd.symm, lt_asymm ht⟩)
    · exact Or.inr (Or.inl h)

instance slotLe.trans : IsTrans FoundSlot slotLe where
  trans a b c hab hbc := by
    rcases hab with hab | ⟨dab, tab⟩
    · rcases hbc with hbc | ⟨dbc, _⟩
      · exact Or.inl (lt_trans hab hbc)
      · exact Or.inl (dbc ▸ hab)
    · rcases hbc with hbc | ⟨dbc, tbc⟩
      · exact Or.inl (dab ▸ hbc)
      · exact Or.inr ⟨dab.trans dbc,
          not_lt.mpr (le_trans (not_lt.mp tab) (not_lt.mp tbc))⟩

/-- One message line for a slot: the calendar emoji, then date, time and
price. -/
def render_slot (s : FoundSlot) : String :=
  "📅 " ++ s.date ++ " @ " ++ s.time ++ " (" ++ pyStr s.price ++ ")"

/-- The `msg_lines` list built for the WhatsApp message: header, count line,
blank, the first 10 slots after the stable ascending sort by `(date, time)`
(Python's `list.sort` modelled by stable insertion sort), blank, booking
link. -/
def msg_lines (cfg : Config) (found : List FoundSlot) : List String :=
  ["🎾 *Padel Courts Available!*",
   "Found " ++ toString found.length ++ " indoor slots after "
     ++ toString cfg.min_hour ++ ":00",
   ""]
  ++ ((List.insertionSort slotLe found).take 10).map render_slot
  ++ ["", "Book: https://playtomic.io"]

/-- How one call of `check_and_notify` ended. -/
inductive Status where
  | noData
  | aborted
  | completed
deriving DecidableEq, Repr

/-- Observable outcome of one `check_and_notify` call: the value of
`self.known_available` afterwards, how the cycle ended, the `found_slots`
list, the computed `new_openings`, and the message passed to `send_whatsapp`
(as its list of lines) when one was sent. -/
structure CycleResult where
  known : Finset String
  status : Status
  found : List FoundSlot
  new_openings : Finset String
  msg : Option (List String)
deriving DecidableEq

/-- The function `check_and_notify`: `fetched` is the return of `get_available_courts`
(`none` models the `return None` of a global fetch error; the empty list an
empty `all_results`), `known` is `self.known_available` on entry. -/
def check_and_notify (cfg : Config) (fetched : Option (List Day))
    (known : Finset String) : CycleResult :=
  match fetched with
  | none => ⟨known, .noData, [], ∅, none⟩
  | some days =>
    if days = [] then ⟨known, .noData, [], ∅, none⟩
    else
      match process_days cfg days with
      | none => ⟨known, .aborted, [], ∅, none⟩
      | some pairs =>
        let found_slots := pairs.map Prod.fst
        let current_cycle_ids := (pairs.map Prod.snd).toFinset
        let new_openings := current_cycle_ids \ known
        let msg :=
          if found_slots = [] then none
          else if new_openings = ∅ then none
          else some (msg_lines cfg found_slots)
        ⟨current_cycle_ids, .completed, found_slots, new_openings, msg⟩

/-- The function `send_whatsapp`: every exception is caught inside, so the call returns
`True` on delivery and `False` on failure and never raises; `delivered`
stands for whether the HTTP request succeeded. -/
def send_whatsapp (delivered : Bool) (message : String) : Bool :=
  delivered

/-- One cycle together with the delivery attempt of its message, pairing the
cycle result with the return value of `send_whatsapp` (which
`check_and_notify` discards). -/
def cycle_with_delivery (cfg : Config) (fetched : Option (List Day))
    (known : Finset String) (delivered : Bool) : CycleResult × Option Bool :=
  let res := check_and_notify cfg fetched known
  (res, res.msg.map fun lines => send_whatsapp delivered (String.intercalate "\n" lines))

/-- Modelled from the spec (§4.2): whether a slot passes the minimum-hour
rule — its start time is present and its leading hour digits parse to an
integer at least `min_hour`. -/
def hour_ok (cfg : Config) (s : Slot) : Bool :=
  match s.start_time with
  | none => false
  | some st =>
    match start_hour st with
    | none => false
    | some h => decide (cfg.min_hour ≤ h)

/-- Modelled from the spec (§4.2): the canonical output — for each day and
each resource, drop the resource if its identifier is in the ignore-set,
otherwise keep exactly the slots passing the minimum-hour rule. -/
def spec_canonical (cfg : Config) (days : List Day) : List (FoundSlot × String) :=
  days.flatMap fun d => d.data.flatMap fun r =>
    if court_of r ∈ cfg.ignored_courts then []
    else (r.slots.filter (hour_ok cfg)).map (canon_pair d.date (court_of r))

/-- Modelled from the spec (§4.2): every candidate slot canonicalized with no
filter rule applied at all. -/
def all_canonical (days : List Day) : List (FoundSlot × String) :=
  days.flatMap fun d => d.data.flatMap fun r =>
    r.slots.map (canon_pair d.date (court_of r))

end WA

namespace Email

open Playtomic

/-- A raw slot object of the email variant; `available` models the
truthiness of the available field (absent or falsy becomes `false`). -/
structure Slot where
  available : Bool
  resource_id : Option String
  id : Option String
  start_time : Option String
  time : Option String
  price : Option String
  venue_name : Option String
deriving DecidableEq, Repr

/-- One entry of `all_available`: a tenant id with its availability data. -/
structure Club where
  tenant_id : String
  data : List Slot
deriving DecidableEq, Repr

/-- One entry of `available_courts`. -/
structure Court where
  tenant_id : String
  court_id : Option String
  time : Option String
  price : Option String
  venue_name : String
deriving DecidableEq, Repr

/-- The dictionary appended for an available slot: resource_id or id,
start_time or time, venue_name or the Unknown Club default. -/
def mk_court (tenant : String) (s : Slot) : Court :=
  ⟨tenant, pyOr s.resource_id s.id, pyOr s.start_time s.time, s.price,
    pyOrD s.venue_name "Unknown Club"⟩

/-- The loop over one club's slots: keep a slot iff its available field is
truthy. -/
def collect_slots (tenant : String) : List Slot → List Court
  | [] => []
  | s :: rest =>
    if s.available then mk_court tenant s :: collect_slots tenant rest
    else collect_slots tenant rest

/-- The `for club_data in data` loop building `available_courts`. -/
def collect_courts : List Club → List Court
  | [] => []
  | club :: rest => collect_slots club.tenant_id club.data ++ collect_courts rest

/-- The identity key of the email variant: tenant id, rendered court id and
rendered time joined by underscores. -/
def court_key (c : Court) : String :=
  c.tenant_id ++ "_" ++ pyStr c.court_id ++ "_" ++ pyStr c.time

/-- The function `format_notification`, with `now` standing for the wall-clock timestamp
interpolated into the body. -/
def format_notification (now : String) (courts : List Court) : String :=
  "<h2>🎾 Paddle Courts Available!</h2>"
  ++ "<p>Found " ++ toString courts.length ++ " available court(s) at " ++ now ++ "</p>"
  ++ "<ul>"
  ++ String.join (courts.map fun c =>
      "<li><strong>" ++ c.venue_name ++ "</strong> - " ++ pyStr c.time
        ++ " - €" ++ pyStr c.price ++ "</li>")
  ++ "</ul>"
  ++ "<p>Book now at <a href=\x27https://playtomic.io\x27>Playtomic</a></p>"

/-- The email that `send_email` is asked to deliver, together with the
`new_court_details` list it was rendered from. -/
structure Msg where
  subject : String
  body : String
  courts : List Court
deriving DecidableEq

/-- Observable outcome of one email-variant `check_and_notify` call. -/
structure CycleResult where
  known : Finset String
  found : List Court
  new_courts : Finset String
  msg : Option Msg
deriving DecidableEq

/-- The email variant's `check_and_notify`: `data = none` models the
`return None` of `get_available_courts` on error (only `None` short-circuits;
an empty list is processed and clears the known set). -/
def check_and_notify (now : String) (data : Option (List Club))
    (known : Finset String) : CycleResult :=
  match data with
  | none => ⟨known, [], ∅, none⟩
  | some clubs =>
    let available_courts := collect_courts clubs
    let current_available := (available_courts.map court_key).toFinset
    let new_courts := current_available \ known
    if new_courts = ∅ then ⟨current_available, available_courts, new_courts, none⟩
    else
      let new_court_details :=
        available_courts.filter fun c => decide (court_key c ∈ new_courts)
      ⟨current_available, available_courts, new_courts,
        some ⟨"🎾 New Padel Courts Available in Mannheim!",
          format_notification now new_court_details, new_court_details⟩⟩

/-- Modelled from the spec: the courts list as a filter — exactly the slots
whose `available` field is truthy, in order. -/
def spec_available (clubs : List Club) : List Court :=
  clubs.flatMap fun club =>
    (club.data.filter (·.available)).map (mk_court club.tenant_id)

end Email

namespace Fixtures

/-- Eleven well-formed evening slots, for exercising truncation concretely. -/
def slots11 : List WA.Slot :=
  [⟨some "18:00:00", some "1"⟩, ⟨some "18:30:00", some "2"⟩, ⟨some "19:00:00", some "3"⟩,
   ⟨some "19:30:00", some "4"⟩, ⟨some "20:00:00", some "5"⟩, ⟨some "20:30:00", some "6"⟩,
   ⟨some "21:00:00", some "7"⟩, ⟨some "21:30:00", some "8"⟩, ⟨some "22:00:00", some "9"⟩,
   ⟨some "22:30:00", some "10"⟩, ⟨some "23:00:00", some "11"⟩]

/-- A one-day fetch result carrying the eleven slots of `slots11`. -/
def days11 : List WA.Day := [⟨"D", [⟨some "R", slots11⟩]⟩]

/-- The message lines the monitor builds for `days11` from an empty Known-Set:
the header counts all 11 slots, the body lists only the first 10. -/
def lines11 : List String :=
  ["🎾 *Padel Courts Available!*", "Found 11 indoor slots after 17:00", "",
   "📅 D @ 18:00 (1)", "📅 D @ 18:30 (2)", "📅 D @ 19:00 (3)", "📅 D @ 19:30 (4)",
   "📅 D @ 20:00 (5)", "📅 D @ 20:30 (6)", "📅 D @ 21:00 (7)", "📅 D @ 21:30 (8)",
   "📅 D @ 22:00 (9)", "📅 D @ 22:30 (10)", "", "Book: https://playtomic.io"]

end Fixtures

open Playtomic

/-- Characterization of the slot loop: on success it returns exactly the
slots passing the minimum-hour rule, canonicalized, in order. -/
theorem process_slots_eq (cfg : WA.Config) (date court : String) :
    ∀ (slots : List WA.Slot) (l : List (WA.FoundSlot × String)),
      WA.process_slots cfg date court slots = some l →
      l = (slots.filter (WA.hour_ok cfg)).map (WA.canon_pair date court)
  | [], l, h => by
    simp only [WA.process_slots, Option.some.injEq] at h
    simp [h.symm]
  | s :: rest, l, h => by
    rcases hst : s.start_time with _ | st
    · simp only [WA.process_slots, hst] at h
      exact Option.noConfusion h
    · simp only [WA.process_slots, hst] at h
      rcases hh : WA.start_hour st with _ | hour
      · simp only [hh] at h
        exact Option.noConfusion h
      · simp only [hh] at h
        by_cases hlt : hour < cfg.min_hour
        · rw [if_pos hlt] at h
          have ih := process_slots_eq cfg date court rest l h
          have hok : WA.hour_ok cfg s = false := by
            simp only [WA.hour_ok, hst, hh, decide_eq_false_iff_not]
            omega
          simp [List.filter_cons, hok, ih]
        · rw [if_neg hlt] at h
          rcases Option.map_eq_some'.mp h with ⟨tail, htail, hl⟩
          have ih := process_slots_eq cfg date court rest tail htail
          have hok : WA.hour_ok cfg s = true := by
            simp only [WA.hour_ok, hst, hh, decide_eq_true_eq]
            omega
          have hc : WA.canon_pair date court s
              = (⟨date, WA.take5 st, s.price⟩, WA.slot_id date court st) := by
            simp [WA.canon_pair, hst]
          simp [List.filter_cons, hok, ← hl, ih, hc]

/-- Characterization of the resource loop: on success it returns, per
resource, nothing when the court is ignored and the hour-filtered canonical
slots otherwise. -/
theorem process_resources_eq (cfg : WA.Config) (date : String) :
    ∀ (rs : List WA.Resource) (l : List (WA.FoundSlot × String)),
      WA.process_resources cfg date rs = some l →
      l = rs.flatMap fun r =>
        if WA.court_of r ∈ cfg.ignored_courts then []
        else (r.slots.filter (WA.hour_ok cfg)).map (WA.canon_pair date (WA.court_of r))
  | [], l, h => by
    simp only [WA.process_resources, Option.some.injEq] at h
    simp [h.symm]
  | r :: rest, l, h => by
    by_cases hig : WA.court_of r ∈ cfg.ignored_courts
    · rw [WA.process_resources, if_pos hig] at h
      have ih := process_resources_eq cfg date rest l h
      simp [List.flatMap_cons, if_pos hig, ih]
    · rw [WA.process_resources, if_neg hig] at h
      rcases hps : WA.process_slots cfg date (WA.court_of r) r.slots with _ | here
      · simp only [hps] at h
        exact Option.noConfusion h
      · simp only [hps] at h
        rcases Option.map_eq_some'.mp h with ⟨there, hthere, hl⟩
        have ih := process_resources_eq cfg date rest there hthere
        have hh := process_slots_eq cfg date (WA.court_of r) r.slots here hps
        simp [List.flatMap_cons, if_neg hig, ← hl, ih, hh]

/-- Characterization of the day loop: on success the collected pairs are
exactly the spec-side canonical output. -/
theorem process_days_eq (cfg : WA.Config) :
    ∀ (days : List WA.Day) (l : List (WA.FoundSlot × String)),
      WA.process_days cfg days = some l → l = WA.spec_canonical cfg days
  | [], l, h => by
    simp only [WA.process_days, Option.some.injEq] at h
    simp [h.symm, WA.spec_canonical]
  | d :: rest, l, h => by
    rcases hpr : WA.process_resources cfg d.date d.data with _ | here
    · simp only [WA.process_days, hpr] at h
      exact Option.noConfusion h
    · simp only [WA.process_days, hpr] at h
      rcases Option.map_eq_some'.mp h with ⟨there, hthere, hl⟩
      have ih := process_days_eq cfg rest there hthere
      have hh := process_resources_eq cfg d.date d.data here hpr
      simp [WA.spec_canonical, List.flatMap_cons, ← hl, ih, hh]

/-- Shape of a completed WhatsApp-variant cycle: with non-empty fetched data
and a successful normalization, the result fields are as written at the end
of `check_and_notify`. -/
theorem check_completed (cfg : WA.Config) (days : List WA.Day) (K : Finset String)
    (pairs : List (WA.FoundSlot × String)) (hne : days ≠ [])
    (hp : WA.process_days cfg days = some pairs) :
    WA.check_and_notify cfg (some days) K =
      ⟨(pairs.map Prod.snd).toFinset, .completed, pairs.map Prod.fst,
        (pairs.map Prod.snd).toFinset \ K,
        if pairs.map Prod.fst = [] then none
        else if (pairs.map Prod.snd).toFinset \ K = ∅ then none
        else some (WA.msg_lines cfg (pairs.map Prod.fst))⟩ := by
  simp [WA.check_and_notify, hne, hp]

/-- Shape of an email-variant cycle on non-`None` data. -/
theorem email_check_shape (now : String) (clubs : List Email.Club) (K : Finset String) :
    (Email.check_and_notify now (some clubs) K).known
        = ((Email.collect_courts clubs).map Email.court_key).toFinset
      ∧ (Email.check_and_notify now (some clubs) K).new_courts
        = ((Email.collect_courts clubs).map Email.court_key).toFinset \ K
      ∧ (Email.check_and_notify now (some clubs) K).found
        = Email.collect_courts clubs := by
  by_cases hnew : ((Email.collect_courts clubs).map Email.court_key).toFinset \ K = ∅ <;>
    simp [Email.check_and_notify, hnew]

/-- Claim C1: For every Known-Set `K` and current-cycle identity set `C`, the
newly-reported identities computed by a cycle are exactly `C \ K`, and every
element of `K \ C` is absent from the state kept after the cycle (no history
is retained).  Stated for both variants; in each, the cycle must actually
have computed an identity set (data present, normalization successful). -/
theorem c1_set_difference :
    (∀ (cfg : WA.Config) (days : List WA.Day) (K : Finset String)
        (pairs : List (WA.FoundSlot × String)),
      days ≠ [] → WA.process_days cfg days = some pairs →
      (WA.check_and_notify cfg (some days) K).new_openings
          = (pairs.map Prod.snd).toFinset \ K
        ∧ (WA.check_and_notify cfg (some days) K).known = (pairs.map Prod.snd).toFinset
        ∧ ∀ x ∈ K, x ∉ (pairs.map Prod.snd).toFinset →
            x ∉ (WA.check_and_notify cfg (some days) K).known)
    ∧ (∀ (now : String) (clubs : List Email.Club) (K : Finset String),
      (Email.check_and_notify now (some clubs) K).new_courts
          = ((Email.collect_courts clubs).map Email.court_key).toFinset \ K
        ∧ (Email.check_and_notify now (some clubs) K).known
          = ((Email.collect_courts clubs).map Email.court_key).toFinset
        ∧ ∀ x ∈ K, x ∉ ((Email.collect_courts clubs).map Email.court_key).toFinset →
            x ∉ (Email.check_and_notify now (some clubs) K).known) := by
  constructor
  · intro cfg days K pairs hne hp
    rw [check_completed cfg days K pairs hne hp]
    refine ⟨rfl, rfl, ?_⟩
    intro x _ hx
    simpa using hx
  · intro now clubs K
    obtain ⟨hk, hn, _⟩ := email_check_shape now clubs K
    refine ⟨hn, hk, ?_⟩
    intro x _ hx
    rw [hk]
    exact hx

/-- Witness for C1 at a concrete cycle of each variant. -/
theorem c1_set_difference_witness :
    ((WA.check_and_notify ⟨[], 17⟩
        (some [⟨"D", [⟨some "R", [⟨some "18:00:00", none⟩]⟩]⟩]) {"gone"}).new_openings
        = ([((⟨"D", "18:00", none⟩ : WA.FoundSlot), "D_R_18:00:00")].map Prod.snd).toFinset
            \ {"gone"}
      ∧ (WA.check_and_notify ⟨[], 17⟩
        (some [⟨"D", [⟨some "R", [⟨some "18:00:00", none⟩]⟩]⟩]) {"gone"}).known
        = ([((⟨"D", "18:00", none⟩ : WA.FoundSlot), "D_R_18:00:00")].map Prod.snd).toFinset)
    ∧ ((Email.check_and_notify "NOW"
        (some [⟨"T", [⟨true, some "A", none, some "10:00", none, none, none⟩]⟩])
        {"T_A_10:00"}).new_courts
        = ((Email.collect_courts
            [⟨"T", [⟨true, some "A", none, some "10:00", none, none, none⟩]⟩]).map
            Email.court_key).toFinset \ {"T_A_10:00"}) := by
  have h₁ := c1_set_difference.1 ⟨[], 17⟩
    [⟨"D", [⟨some "R", [⟨some "18:00:00", none⟩]⟩]⟩] {"gone"}
    [((⟨"D", "18:00", none⟩ : WA.FoundSlot), "D_R_18:00:00")]
    (by decide) (by decide)
  have h₂ := c1_set_difference.2 "NOW"
    [⟨"T", [⟨true, some "A", none, some "10:00", none, none, none⟩]⟩] {"T_A_10:00"}
  exact ⟨⟨h₁.1, h₁.2.1⟩, h₂.1⟩

/-- Claim C3: If two consecutive cycles produce the same identity set, the
second cycle reports zero new identities and sends no notification. -/
theorem c3_idempotent_cycle (cfg : WA.Config) (days₁ days₂ : List WA.Day)
    (K : Finset String) (pairs₁ pairs₂ : List (WA.FoundSlot × String))
    (h₁ : days₁ ≠ []) (h₂ : days₂ ≠ [])
    (hp₁ : WA.process_days cfg days₁ = some pairs₁)
    (hp₂ : WA.process_days cfg days₂ = some pairs₂)
    (hsame : (pairs₂.map Prod.snd).toFinset = (pairs₁.map Prod.snd).toFinset) :
    (WA.check_and_notify cfg (some days₂)
        (WA.check_and_notify cfg (some days₁) K).known).new_openings = ∅
      ∧ (WA.check_and_notify cfg (some days₂)
        (WA.check_and_notify cfg (some days₁) K).known).msg = none := by
  rw [check_completed cfg days₁ K pairs₁ h₁ hp₁]
  rw [check_completed cfg days₂ _ pairs₂ h₂ hp₂]
  simp [hsame]

/-- Witness for C3: the same fetched data two cycles in a row. -/
theorem c3_idempotent_cycle_witness :
    (WA.check_and_notify ⟨[], 17⟩
        (some [⟨"D", [⟨some "R", [⟨some "18:00:00", none⟩]⟩]⟩])
        (WA.check_and_notify ⟨[], 17⟩
          (some [⟨"D", [⟨some "R", [⟨some "18:00:00", none⟩]⟩]⟩]) ∅).known).new_openings = ∅
      ∧ (WA.check_and_notify ⟨[], 17⟩
        (some [⟨"D", [⟨some "R", [⟨some "18:00:00", none⟩]⟩]⟩])
        (WA.check_and_notify ⟨[], 17⟩
          (some [⟨"D", [⟨some "R", [⟨some "18:00:00", none⟩]⟩]⟩]) ∅).known).msg = none :=
  c3_idempotent_cycle ⟨[], 17⟩ _ _ ∅
    [((⟨"D", "18:00", none⟩ : WA.FoundSlot), "D_R_18:00:00")]
    [((⟨"D", "18:00", none⟩ : WA.FoundSlot), "D_R_18:00:00")]
    (by decide) (by decide) (by decide) (by decide) rfl

/-- Counterexample to C2 as stated: a cycle whose fetch yields data (a
non-empty `availability_data`) but whose filter step hits a malformed start
time (`int` of the text oops raises) leaves the Known-Set at its prior value instead
of replacing it with the current cycle's identities — the well-formed slot
seen in the same cycle is not recorded. -/
theorem c2_counterexample :
    ([(⟨"D", [⟨some "R", [⟨some "18:00:00", none⟩, ⟨some "oops", none⟩]⟩]⟩ : WA.Day)] ≠ [])
    ∧ (WA.check_and_notify ⟨[], 17⟩
        (some [⟨"D", [⟨some "R", [⟨some "18:00:00", none⟩, ⟨some "oops", none⟩]⟩]⟩])
        {"old"}).known = {"old"}
    ∧ WA.slot_id "D" "R" "18:00:00" ∉ (WA.check_and_notify ⟨[], 17⟩
        (some [⟨"D", [⟨some "R", [⟨some "18:00:00", none⟩, ⟨some "oops", none⟩]⟩]⟩])
        {"old"}).known := by
  decide

/-- Claim C2, amended: In every cycle whose fetch yields data and whose
normalize/filter step completes without raising, the Known-Set is replaced in
full by the current cycle's identity set, regardless of whether the delta was
empty; in a cycle whose fetch yields no data (`None` or an empty result), or
whose normalize step raises, the Known-Set keeps its prior value and no
notification is sent. -/
theorem c2_overwrite_amended :
    (∀ (cfg : WA.Config) (days : List WA.Day) (K : Finset String)
        (pairs : List (WA.FoundSlot × String)),
      days ≠ [] → WA.process_days cfg days = some pairs →
      (WA.check_and_notify cfg (some days) K).known = (pairs.map Prod.snd).toFinset)
    ∧ (∀ (cfg : WA.Config) (K : Finset String),
      WA.check_and_notify cfg none K = ⟨K, .noData, [], ∅, none⟩)
    ∧ (∀ (cfg : WA.Config) (K : Finset String),
      WA.check_and_notify cfg (some []) K = ⟨K, .noData, [], ∅, none⟩)
    ∧ (∀ (cfg : WA.Config) (days : List WA.Day) (K : Finset String),
      days ≠ [] → WA.process_days cfg days = none →
      WA.check_and_notify cfg (some days) K = ⟨K, .aborted, [], ∅, none⟩) := by
  refine ⟨?_, ?_, ?_, ?_⟩
  · intro cfg days K pairs hne hp
    rw [check_completed cfg days K pairs hne hp]
  · intro cfg K
    rfl
  · intro cfg K
    simp [WA.check_and_notify]
  · intro cfg days K hne hp
    simp [WA.check_and_notify, hne, hp]

/-- Witness for the amended C2: a successful cycle overwrites even with an
empty delta; a `None` fetch and an aborting cycle leave the set alone. -/
theorem c2_overwrite_amended_witness :
    ((WA.check_and_notify ⟨[], 17⟩
        (some [⟨"D", [⟨some "R", [⟨some "18:00:00", none⟩]⟩]⟩]) {"old"}).known
      = ([((⟨"D", "18:00", none⟩ : WA.FoundSlot), "D_R_18:00:00")].map Prod.snd).toFinset)
    ∧ (WA.check_and_notify ⟨[], 17⟩ none {"old"} = ⟨{"old"}, .noData, [], ∅, none⟩)
    ∧ (WA.check_and_notify ⟨[], 17⟩ (some [⟨"D", [⟨some "R", [⟨some "oops", none⟩]⟩]⟩])
        {"old"} = ⟨{"old"}, .aborted, [], ∅, none⟩) :=
  ⟨c2_overwrite_amended.1 ⟨[], 17⟩ [⟨"D", [⟨some "R", [⟨some "18:00:00", none⟩]⟩]⟩] {"old"}
      [((⟨"D", "18:00", none⟩ : WA.FoundSlot), "D_R_18:00:00")] (by decide) (by decide),
    c2_overwrite_amended.2.1 ⟨[], 17⟩ {"old"},
    c2_overwrite_amended.2.2.2 ⟨[], 17⟩ [⟨"D", [⟨some "R", [⟨some "oops", none⟩]⟩]⟩] {"old"}
      (by decide) (by decide)⟩

/-- Claim C8: A notification-delivery failure is invisible to the cycle:
`send_whatsapp` catches every exception and its return value is discarded, so
the cycle result (including the overwritten Known-Set) is identical whatever
the delivery outcome, and a next cycle fetching the same data reports nothing
new — the slots carried by the failed message are not re-announced. -/
theorem c8_delivery_failure_isolated (cfg : WA.Config) (days : List WA.Day)
    (K : Finset String) (pairs : List (WA.FoundSlot × String)) (delivered : Bool)
    (hne : days ≠ []) (hp : WA.process_days cfg days = some pairs) :
    ((WA.cycle_with_delivery cfg (some days) K delivered).1
        = WA.check_and_notify cfg (some days) K)
    ∧ ((WA.cycle_with_delivery cfg (some days) K delivered).1.known
        = (pairs.map Prod.snd).toFinset)
    ∧ ((WA.check_and_notify cfg (some days)
        (WA.cycle_with_delivery cfg (some days) K false).1.known).new_openings = ∅)
    ∧ ((WA.check_and_notify cfg (some days)
        (WA.cycle_with_delivery cfg (some days) K false).1.known).msg = none) := by
  have hres : ∀ d : Bool, (WA.cycle_with_delivery cfg (some days) K d).1
      = WA.check_and_notify cfg (some days) K := fun _ => rfl
  refine ⟨hres delivered, ?_, ?_, ?_⟩
  · rw [hres delivered, check_completed cfg days K pairs hne hp]
  · rw [hres false, check_completed cfg days K pairs hne hp,
      check_completed cfg days _ pairs hne hp]
    simp
  · rw [hres false, check_completed cfg days K pairs hne hp,
      check_completed cfg days _ pairs hne hp]
    simp

/-- Witness for C8 at a concrete failed delivery. -/
theorem c8_delivery_failure_isolated_witness :
    ((WA.cycle_with_delivery ⟨[], 17⟩
        (some [⟨"D", [⟨some "R", [⟨some "18:00:00", none⟩]⟩]⟩]) ∅ false).1
        = WA.check_and_notify ⟨[], 17⟩
          (some [⟨"D", [⟨some "R", [⟨some "18:00:00", none⟩]⟩]⟩]) ∅)
    ∧ ((WA.check_and_notify ⟨[], 17⟩
        (some [⟨"D", [⟨some "R", [⟨some "18:00:00", none⟩]⟩]⟩])
        (WA.cycle_with_delivery ⟨[], 17⟩
          (some [⟨"D", [⟨some "R", [⟨some "18:00:00", none⟩]⟩]⟩]) ∅ false).1.known).msg
        = none) := by
  have h := c8_delivery_failure_isolated ⟨[], 17⟩
    [⟨"D", [⟨some "R", [⟨some "18:00:00", none⟩]⟩]⟩] ∅
    [((⟨"D", "18:00", none⟩ : WA.FoundSlot), "D_R_18:00:00")] false
    (by decide) (by decide)
  exact ⟨h.1, h.2.2.2⟩

/-- A WhatsApp message is sent only from a completed cycle with matching
slots and a non-empty delta, and its lines are `msg_lines` of the cycle's
`found_slots`. -/
theorem msg_some_shape (cfg : WA.Config) (fetched : Option (List WA.Day))
    (K : Finset String) (lines : List String)
    (h : (WA.check_and_notify cfg fetched K).msg = some lines) :
    lines = WA.msg_lines cfg (WA.check_and_notify cfg fetched K).found
      ∧ (WA.check_and_notify cfg fetched K).found ≠ []
      ∧ (WA.check_and_notify cfg fetched K).new_openings ≠ ∅ := by
  match fetched with
  | none => simp [WA.check_and_notify] at h
  | some days =>
    by_cases hne : days = []
    · simp [WA.check_and_notify, hne] at h
    · rcases hp : WA.process_days cfg days with _ | pairs
      · simp [WA.check_and_notify, hne, hp] at h
      · rw [check_completed cfg days K pairs hne hp] at h ⊢
        by_cases hf : pairs.map Prod.fst = []
        · simp [hf] at h
        · by_cases hnew : (pairs.map Prod.snd).toFinset \ K = ∅
          · simp [hf, hnew] at h
          · simp only [hf, hnew, if_neg, Option.some.injEq, ite_false] at h
            exact ⟨h.symm, hf, hnew⟩

/-- An email is sent only when the delta is non-empty, and it is rendered
from `new_court_details`: the available courts whose key is in the delta. -/
theorem email_msg_some_shape (now : String) (data : Option (List Email.Club))
    (K : Finset String) (m : Email.Msg)
    (h : (Email.check_and_notify now data K).msg = some m) :
    m.courts = (Email.check_and_notify now data K).found.filter
        (fun c => decide (Email.court_key c ∈ (Email.check_and_notify now data K).new_courts))
      ∧ m.body = Email.format_notification now m.courts := by
  match data with
  | none => simp [Email.check_and_notify] at h
  | some clubs =>
    by_cases hnew : ((Email.collect_courts clubs).map Email.court_key).toFinset \ K = ∅
    · simp [Email.check_and_notify, hnew] at h
    · simp only [Email.check_and_notify, hnew, if_neg, ite_false, Option.some.injEq] at h ⊢
      subst h
      exact ⟨rfl, rfl⟩

/-- Claim C6: Whenever a notification is sent, its body lists at most 10 slots
even when more matching slots were found, while the total stated in the
header line is the full count of matching slots, including truncated ones. -/
theorem c6_truncation_bound (cfg : WA.Config) (fetched : Option (List WA.Day))
    (K : Finset String) (lines : List String)
    (h : (WA.check_and_notify cfg fetched K).msg = some lines) :
    ∃ slot_lines : List String,
      slot_lines.length ≤ 10
      ∧ slot_lines = ((List.insertionSort WA.slotLe
          (WA.check_and_notify cfg fetched K).found).take 10).map WA.render_slot
      ∧ lines = ["🎾 *Padel Courts Available!*",
          "Found " ++ toString (WA.check_and_notify cfg fetched K).found.length
            ++ " indoor slots after " ++ toString cfg.min_hour ++ ":00", ""]
          ++ slot_lines ++ ["", "Book: https://playtomic.io"] := by
  obtain ⟨hl, -, -⟩ := msg_some_shape cfg fetched K lines h
  refine ⟨_, ?_, rfl, ?_⟩
  · simpa using Nat.min_le_left 10 _
  · rw [hl]
    rfl

/-- Witness for C6: eleven matching slots, header counting 11, ten listed. -/
theorem c6_truncation_bound_witness :
    ∃ slot_lines : List String,
      slot_lines.length ≤ 10
      ∧ slot_lines = ((List.insertionSort WA.slotLe
          (WA.check_and_notify ⟨[], 17⟩ (some Fixtures.days11) ∅).found).take 10).map
            WA.render_slot
      ∧ Fixtures.lines11 = ["🎾 *Padel Courts Available!*",
          "Found " ++ toString (WA.check_and_notify ⟨[], 17⟩
              (some Fixtures.days11) ∅).found.length
            ++ " indoor slots after " ++ toString (⟨[], 17⟩ : WA.Config).min_hour ++ ":00", ""]
          ++ slot_lines ++ ["", "Book: https://playtomic.io"] :=
  c6_truncation_bound ⟨[], 17⟩ (some Fixtures.days11) ∅ Fixtures.lines11 (by decide)

/-- Counterexample to C7 as stated: in the email variant a notification is
built from only the newly-found courts, not from all currently-valid ones —
with two available courts of which one is already known, the sent body is
rendered from a single court. -/
theorem c7_counterexample :
    ((Email.check_and_notify "NOW"
        (some [⟨"T", [⟨true, some "A", none, some "10:00", none, some "5", some "VA"⟩,
                      ⟨true, some "B", none, some "09:00", none, some "6", some "VB"⟩]⟩])
        {"T_A_10:00"}).msg.map (fun m => m.courts.length) = some 1)
    ∧ ((Email.check_and_notify "NOW"
        (some [⟨"T", [⟨true, some "A", none, some "10:00", none, some "5", some "VA"⟩,
                      ⟨true, some "B", none, some "09:00", none, some "6", some "VB"⟩]⟩])
        {"T_A_10:00"}).found.length = 2) := by
  decide

/-- Claim C7, amended: In the WhatsApp variant, every sent message body is
built from all currently-valid slots of the cycle (not only the new ones),
sorted ascending by `(date, time)` before truncation to 10, each rendered as
one line containing date, time and price, wrapped in a header stating the
total count and a footer with the fixed booking link.  In the email variant,
the body is instead rendered from only the newly-found courts, in collection
order. -/
theorem c7_notification_body :
    (∀ (cfg : WA.Config) (fetched : Option (List WA.Day)) (K : Finset String)
        (lines : List String),
      (WA.check_and_notify cfg fetched K).msg = some lines →
      ∃ sorted : List WA.FoundSlot,
        sorted.Perm (WA.check_and_notify cfg fetched K).found
        ∧ sorted.Pairwise WA.slotLe
        ∧ lines = ["🎾 *Padel Courts Available!*",
            "Found " ++ toString (WA.check_and_notify cfg fetched K).found.length
              ++ " indoor slots after " ++ toString cfg.min_hour ++ ":00", ""]
            ++ (sorted.take 10).map WA.render_slot ++ ["", "Book: https://playtomic.io"])
    ∧ (∀ (now : String) (data : Option (List Email.Club)) (K : Finset String)
        (m : Email.Msg),
      (Email.check_and_notify now data K).msg = some m →
      m.courts = (Email.check_and_notify now data K).found.filter
          (fun c => decide (Email.court_key c ∈ (Email.check_and_notify now data K).new_courts))
        ∧ m.body = Email.format_notification now m.courts) := by
  constructor
  · intro cfg fetched K lines h
    obtain ⟨hl, -, -⟩ := msg_some_shape cfg fetched K lines h
    refine ⟨List.insertionSort WA.slotLe (WA.check_and_notify cfg fetched K).found,
      List.perm_insertionSort WA.slotLe _, List.sorted_insertionSort WA.slotLe _, ?_⟩
    rw [hl]
    rfl
  · intro now data K m h
    exact email_msg_some_shape now data K m h

set_option maxRecDepth 20000 in
/-- Witness for the amended C7 at concrete cycles of both variants. -/
theorem c7_notification_body_witness :
    (∃ sorted : List WA.FoundSlot,
      sorted.Perm (WA.check_and_notify ⟨[], 17⟩ (some Fixtures.days11) ∅).found
      ∧ sorted.Pairwise WA.slotLe
      ∧ Fixtures.lines11 = ["🎾 *Padel Courts Available!*",
          "Found " ++ toString (WA.check_and_notify ⟨[], 17⟩
              (some Fixtures.days11) ∅).found.length
            ++ " indoor slots after " ++ toString (⟨[], 17⟩ : WA.Config).min_hour ++ ":00", ""]
          ++ (sorted.take 10).map WA.render_slot ++ ["", "Book: https://playtomic.io"])
    ∧ ((⟨"🎾 New Padel Courts Available in Mannheim!",
          Email.format_notification "NOW" [⟨"T", some "B", some "09:00", some "6", "VB"⟩],
          [⟨"T", some "B", some "09:00", some "6", "VB"⟩]⟩ : Email.Msg).courts
        = (Email.check_and_notify "NOW"
            (some [⟨"T", [⟨true, some "A", none, some "10:00", none, some "5", some "VA"⟩,
                          ⟨true, some "B", none, some "09:00", none, some "6", some "VB"⟩]⟩])
            {"T_A_10:00"}).found.filter
            (fun c => decide (Email.court_key c ∈ (Email.check_and_notify "NOW"
              (some [⟨"T", [⟨true, some "A", none, some "10:00", none, some "5", some "VA"⟩,
                            ⟨true, some "B", none, some "09:00", none, some "6", some "VB"⟩]⟩])
              {"T_A_10:00"}).new_courts))) :=
  ⟨c7_notification_body.1 ⟨[], 17⟩ (some Fixtures.days11) ∅ Fixtures.lines11 (by decide),
    (c7_notification_body.2 "NOW"
      (some [⟨"T", [⟨true, some "A", none, some "10:00", none, some "5", some "VA"⟩,
                    ⟨true, some "B", none, some "09:00", none, some "6", some "VB"⟩]⟩])
      {"T_A_10:00"}
      ⟨"🎾 New Padel Courts Available in Mannheim!",
        Email.format_notification "NOW" [⟨"T", some "B", some "09:00", some "6", "VB"⟩],
        [⟨"T", some "B", some "09:00", some "6", "VB"⟩]⟩ (by decide)).1⟩

/-- Splitting an equation `a ++ sep :: x = b ++ sep :: y` at the first
occurrence of `sep` when neither `a` nor `b` contains `sep`. -/
theorem sep_append_inj (sep : Char) :
    ∀ (a b x y : List Char), sep ∉ a → sep ∉ b →
      a ++ sep :: x = b ++ sep :: y → a = b ∧ x = y
  | [], [], x, y, _, _, h => by
    simp only [List.nil_append, List.cons.injEq] at h
    exact ⟨rfl, h.2⟩
  | [], c :: bs, x, y, _, hb, h => by
    simp only [List.nil_append, List.cons_append, List.cons.injEq] at h
    exact absurd (show sep ∈ c :: bs by rw [h.1]; exact List.mem_cons_self c bs) hb
  | c :: as, [], x, y, ha, _, h => by
    simp only [List.nil_append, List.cons_append, List.cons.injEq] at h
    exact absurd (show sep ∈ c :: as by rw [← h.1]; exact List.mem_cons_self c as) ha
  | c :: as, d :: bs, x, y, ha, hb, h => by
    simp only [List.cons_append, List.cons.injEq] at h
    have ih := sep_append_inj sep as bs x y
      (fun hm => ha (List.mem_cons_of_mem _ hm))
      (fun hm => hb (List.mem_cons_of_mem _ hm)) h.2
    exact ⟨by rw [h.1, ih.1], ih.2⟩

/-- The character list of a WhatsApp slot identity, split at its two
separator underscores. -/
theorem slot_id_data (d c t : String) :
    (WA.slot_id d c t).data = d.data ++ '_' :: (c.data ++ '_' :: t.data) := by
  simp [WA.slot_id, String.data_append]

/-- The character list of an email court key, split at its two separator
underscores. -/
theorem court_key_data (a : Email.Court) :
    (Email.court_key a).data
      = a.tenant_id.data ++ '_' :: ((pyStr a.court_id).data ++ '_' :: (pyStr a.time).data) := by
  simp [Email.court_key, String.data_append]

/-- Counterexample to C4 as stated: the identity key is a plain underscore
join, so components containing underscores collide — two canonical slots
with different (date, resource identifier, start time) tuples share one key.
In the email variant the key moreover concatenates the tenant id instead of
the date, so two observations identical in (date, resource, start time) but
from different tenants get different keys. -/
theorem c4_counterexample :
    (WA.slot_id "2025-01-01" "A_B" "10:00:00" = WA.slot_id "2025-01-01_A" "B" "10:00:00")
    ∧ (("2025-01-01", "A_B", "10:00:00")
        ≠ (("2025-01-01_A" : String), ("B" : String), ("10:00:00" : String)))
    ∧ (Email.court_key ⟨"T1", some "C", some "10:00", none, "V"⟩
        ≠ Email.court_key ⟨"T2", some "C", some "10:00", none, "V"⟩) := by
  decide

/-- Claim C4, amended: The WhatsApp identity key is the deterministic
concatenation of exactly date, resource identifier and raw start-time string
(price never enters it), and for slots whose date and resource identifier
contain no underscore, keys are equal iff the (date, resource, start time)
tuples are equal.  The email variant's key instead concatenates tenant id,
rendered court id and rendered time, with the analogous equivalence. -/
theorem c4_identity_key :
    (∀ d₁ c₁ t₁ d₂ c₂ t₂ : String,
      '_' ∉ d₁.data → '_' ∉ c₁.data → '_' ∉ d₂.data → '_' ∉ c₂.data →
      (WA.slot_id d₁ c₁ t₁ = WA.slot_id d₂ c₂ t₂ ↔ (d₁, c₁, t₁) = (d₂, c₂, t₂)))
    ∧ (∀ (d c t : String) (p₁ p₂ : Option String),
      (WA.canon_pair d c ⟨some t, p₁⟩).2 = (WA.canon_pair d c ⟨some t, p₂⟩).2)
    ∧ (∀ a b : Email.Court,
      '_' ∉ a.tenant_id.data → '_' ∉ (pyStr a.court_id).data →
      '_' ∉ b.tenant_id.data → '_' ∉ (pyStr b.court_id).data →
      (Email.court_key a = Email.court_key b ↔
        (a.tenant_id, pyStr a.court_id, pyStr a.time)
          = (b.tenant_id, pyStr b.court_id, pyStr b.time))) := by
  refine ⟨?_, ?_, ?_⟩
  · intro d₁ c₁ t₁ d₂ c₂ t₂ hd₁ hc₁ hd₂ hc₂
    constructor
    · intro h
      have hdata := congrArg String.data h
      rw [slot_id_data, slot_id_data] at hdata
      obtain ⟨hd, hrest⟩ := sep_append_inj '_' _ _ _ _ hd₁ hd₂ hdata
      obtain ⟨hc, ht⟩ := sep_append_inj '_' _ _ _ _ hc₁ hc₂ hrest
      exact Prod.ext (String.toList_inj.mp hd)
        (Prod.ext (String.toList_inj.mp hc) (String.toList_inj.mp ht))
    · intro h
      have h' := congrArg Prod.snd h
      rw [WA.slot_id, WA.slot_id, show d₁ = d₂ from congrArg Prod.fst h,
        show c₁ = c₂ from congrArg Prod.fst h', show t₁ = t₂ from congrArg Prod.snd h']
  · intro d c t p₁ p₂
    rfl
  · intro a b ha₁ ha₂ hb₁ hb₂
    constructor
    · intro h
      have hdata := congrArg String.data h
      rw [court_key_data, court_key_data] at hdata
      obtain ⟨hd, hrest⟩ := sep_append_inj '_' _ _ _ _ ha₁ hb₁ hdata
      obtain ⟨hc, ht⟩ := sep_append_inj '_' _ _ _ _ ha₂ hb₂ hrest
      exact Prod.ext (String.toList_inj.mp hd)
        (Prod.ext (String.toList_inj.mp hc) (String.toList_inj.mp ht))
    · intro h
      unfold Email.court_key
      rw [show a.tenant_id = b.tenant_id from congrArg Prod.fst h]
      have h' := congrArg Prod.snd h
      rw [show pyStr a.court_id = pyStr b.court_id from congrArg Prod.fst h',
        show pyStr a.time = pyStr b.time from congrArg Prod.snd h']

/-- Witness for the amended C4 at concrete underscore-free components. -/
theorem c4_identity_key_witness :
    ((WA.slot_id "2025-01-01" "R1" "18:00:00" = WA.slot_id "2025-01-01" "R2" "18:00:00"
      ↔ (("2025-01-01", "R1", "18:00:00") : String × String × String)
          = ("2025-01-01", "R2", "18:00:00"))
    ∧ (WA.canon_pair "2025-01-01" "R1" ⟨some "18:00:00", some "10"⟩).2
        = (WA.canon_pair "2025-01-01" "R1" ⟨some "18:00:00", some "99"⟩).2)
    ∧ (Email.court_key ⟨"T1", some "C", some "10:00", none, "V"⟩
        = Email.court_key ⟨"T1", some "C", some "10:00", some "5", "V"⟩
      ↔ (("T1", pyStr (some "C"), pyStr (some "10:00")) : String × String × String)
          = ("T1", pyStr (some "C"), pyStr (some "10:00"))) :=
  ⟨⟨c4_identity_key.1 "2025-01-01" "R1" "18:00:00" "2025-01-01" "R2" "18:00:00"
      (by decide) (by decide) (by decide) (by decide),
    c4_identity_key.2.1 "2025-01-01" "R1" "18:00:00" (some "10") (some "99")⟩,
    c4_identity_key.2.2 ⟨"T1", some "C", some "10:00", none, "V"⟩
      ⟨"T1", some "C", some "10:00", some "5", "V"⟩
      (by decide) (by decide) (by decide) (by decide)⟩

/-- Pointwise sublists glue to a sublist of flatMaps. -/
theorem flatMap_sublist {α β : Type} (f g : α → List β) (l : List α)
    (h : ∀ a ∈ l, (f a).Sublist (g a)) : (l.flatMap f).Sublist (l.flatMap g) := by
  induction l with
  | nil => simp
  | cons a t ih =>
    simp only [List.flatMap_cons]
    exact (h a (List.mem_cons_self a t)).append
      (ih fun x hx => h x (List.mem_cons_of_mem a hx))

/-- The filtered canonical output is a sublist of the unfiltered one: the two
rules only ever remove candidate slots. -/
theorem spec_canonical_sublist (cfg : WA.Config) (days : List WA.Day) :
    (WA.spec_canonical cfg days).Sublist (WA.all_canonical days) := by
  unfold WA.spec_canonical WA.all_canonical
  refine flatMap_sublist _ _ _ fun d _ => ?_
  refine flatMap_sublist _ _ _ fun r _ => ?_
  by_cases hig : WA.court_of r ∈ cfg.ignored_courts
  · simp [hig]
  · simp only [hig, ite_false, if_neg, not_false_iff]
    exact (List.filter_sublist _).map _

/-- A list with a repeated element dedups to a strictly smaller finset. -/
theorem toFinset_card_lt_of_not_nodup {α : Type} [DecidableEq α] (l : List α)
    (h : ¬ l.Nodup) : l.toFinset.card < l.length := by
  refine lt_of_le_of_ne (List.toFinset_card_le l) fun heq => h ?_
  rw [List.card_toFinset] at heq
  have hd := (List.dedup_sublist l).eq_of_length heq
  rw [← hd]
  exact l.nodup_dedup

/-- Claim C5: A raw slot appears in the canonical output exactly when its
resource is not in the ignore-set and its parsed leading hour is at least the
configured minimum: on success, the collected pairs are precisely the
spec-side filtered canonicalization, and a sublist of the canonicalization
with no filter applied — the rules only remove slots, never add. -/
theorem c5_filter_rules (cfg : WA.Config) (days : List WA.Day)
    (pairs : List (WA.FoundSlot × String))
    (hp : WA.process_days cfg days = some pairs) :
    pairs = WA.spec_canonical cfg days
      ∧ pairs.Sublist (WA.all_canonical days) := by
  have h := process_days_eq cfg days pairs hp
  exact ⟨h, h ▸ spec_canonical_sublist cfg days⟩

/-- Witness for C5: one slot below the hour bound, one passing, one on an
ignored court. -/
theorem c5_filter_rules_witness :
    ([((⟨"D", "18:00", some "12"⟩ : WA.FoundSlot), "D_R1_18:00:00")]
        = WA.spec_canonical ⟨["RX"], 17⟩
          [⟨"D", [⟨some "R1", [⟨some "16:30:00", some "10"⟩, ⟨some "18:00:00", some "12"⟩]⟩,
                  ⟨some "RX", [⟨some "19:00:00", some "9"⟩]⟩]⟩])
    ∧ ([((⟨"D", "18:00", some "12"⟩ : WA.FoundSlot), "D_R1_18:00:00")]).Sublist
        (WA.all_canonical
          [⟨"D", [⟨some "R1", [⟨some "16:30:00", some "10"⟩, ⟨some "18:00:00", some "12"⟩]⟩,
                  ⟨some "RX", [⟨some "19:00:00", some "9"⟩]⟩]⟩]) :=
  c5_filter_rules ⟨["RX"], 17⟩
    [⟨"D", [⟨some "R1", [⟨some "16:30:00", some "10"⟩, ⟨some "18:00:00", some "12"⟩]⟩,
            ⟨some "RX", [⟨some "19:00:00", some "9"⟩]⟩]⟩]
    [((⟨"D", "18:00", some "12"⟩ : WA.FoundSlot), "D_R1_18:00:00")]
    (by decide)

/-- The email slot loop keeps exactly the slots with truthy `available`. -/
theorem collect_slots_eq (tenant : String) :
    ∀ slots : List Email.Slot,
      Email.collect_slots tenant slots
        = (slots.filter (·.available)).map (Email.mk_court tenant)
  | [] => rfl
  | s :: rest => by
    by_cases hav : s.available
    · simp [Email.collect_slots, hav, List.filter_cons, collect_slots_eq tenant rest]
    · simp [Email.collect_slots, hav, List.filter_cons, collect_slots_eq tenant rest]

/-- Claim C9: In the email variant a raw slot contributes to `available_courts`
iff its `available` field is truthy: the collected list equals the filter of
each club's slots by that flag (so a slot without a truthy `available` is
dropped before identity computation and notification). -/
theorem c9_available_flag :
    ∀ clubs : List Email.Club, Email.collect_courts clubs = Email.spec_available clubs
  | [] => rfl
  | club :: rest => by
    simp only [Email.collect_courts, Email.spec_available, List.flatMap_cons]
    rw [collect_slots_eq club.tenant_id club.data, c9_available_flag rest]
    rfl

/-- Claim C10: The number of distinct identity keys never exceeds the number of
collected slot records; the header total counts every record while the
identity set collapses duplicates, strictly so when a key repeats. -/
theorem c10_duplicate_collapse (cfg : WA.Config) (days : List WA.Day)
    (K : Finset String) (pairs : List (WA.FoundSlot × String))
    (hne : days ≠ []) (hp : WA.process_days cfg days = some pairs) :
    ((pairs.map Prod.snd).toFinset.card ≤ pairs.length)
    ∧ ((WA.check_and_notify cfg (some days) K).found.length = pairs.length)
    ∧ ((WA.check_and_notify cfg (some days) K).known.card ≤ pairs.length)
    ∧ (¬ (pairs.map Prod.snd).Nodup →
        (pairs.map Prod.snd).toFinset.card < pairs.length) := by
  have hcard : (pairs.map Prod.snd).toFinset.card ≤ pairs.length := by
    simpa using List.toFinset_card_le (pairs.map Prod.snd)
  refine ⟨hcard, ?_, ?_, ?_⟩
  · rw [check_completed cfg days K pairs hne hp]
    simp
  · rw [check_completed cfg days K pairs hne hp]
    exact hcard
  · intro hdup
    simpa using toFinset_card_lt_of_not_nodup (pairs.map Prod.snd) hdup

/-- Witness for C10: the same (date, court, start time) record twice — the
found list counts 2, the identity set counts 1. -/
theorem c10_duplicate_collapse_witness :
    (([((⟨"D", "18:00", some "5"⟩ : WA.FoundSlot), "D_R_18:00:00"),
        ((⟨"D", "18:00", some "5"⟩ : WA.FoundSlot), "D_R_18:00:00")].map
        Prod.snd).toFinset.card
      ≤ [((⟨"D", "18:00", some "5"⟩ : WA.FoundSlot), "D_R_18:00:00"),
          ((⟨"D", "18:00", some "5"⟩ : WA.FoundSlot), "D_R_18:00:00")].length)
    ∧ ((WA.check_and_notify ⟨[], 17⟩
        (some [⟨"D", [⟨some "R", [⟨some "18:00:00", some "5"⟩, ⟨some "18:00:00", some "5"⟩]⟩]⟩])
        ∅).found.length = 2)
    ∧ (([((⟨"D", "18:00", some "5"⟩ : WA.FoundSlot), "D_R_18:00:00"),
        ((⟨"D", "18:00", some "5"⟩ : WA.FoundSlot), "D_R_18:00:00")].map
        Prod.snd).toFinset.card < 2) := by
  have h := c10_duplicate_collapse ⟨[], 17⟩
    [⟨"D", [⟨some "R", [⟨some "18:00:00", some "5"⟩, ⟨some "18:00:00", some "5"⟩]⟩]⟩] ∅
    [((⟨"D", "18:00", some "5"⟩ : WA.FoundSlot), "D_R_18:00:00"),
      ((⟨"D", "18:00", some "5"⟩ : WA.FoundSlot), "D_R_18:00:00")]
    (by decide) (by decide)
  exact ⟨h.1, h.2.1, h.2.2.2 (by decide)⟩
